import Mathlib

/-!
Verification of the philosopher-quote image endpoint.

The repository bundles three handler variants:

* `PngApi`    — `src/api/philosopher-quote.js` (first document): measures text
  on a canvas, composes an SVG and rasterizes it to PNG;
* `SvgApi`    — `src/api/philosopher-quote.js` (second document): pure SVG
  output, character-count word wrap;
* `CanvasApi` — `src/unnamed/part_000`: draws directly on a node canvas.

Strings are modelled as `List Char` (`Str`).  Pixel-measuring text widths are
modelled by an arbitrary measurement function `μ : Str → Nat`, standing for
`ctx.measureText`.  JavaScript values that flow out of `response.json()` are
modelled by `JsVal` below.
-/

set_option maxRecDepth 2000

abbrev Str := List Char

/-- Whitespace in the sense of JavaScript `String.prototype.trim` restricted
to the ASCII range: space, tab, line feed, carriage return, vertical tab and
form feed.  (The Unicode space classes that `trim` also strips play no role
in any claim.) -/
def isWS (c : Char) : Bool :=
  c == ' ' || c == '\t' || c == '\n' || c == '\r' ||
    c == Char.ofNat 11 || c == Char.ofNat 12

/-- Model of JavaScript `text.split(' ')`: split at every single space,
keeping empty fragments, and produce `[""]` for the empty string.  All three
`wrapText` implementations start with exactly this call. -/
def splitSpace : Str → List Str
  | [] => [[]]
  | c :: rest =>
    if c = ' ' then [] :: splitSpace rest
    else
      match splitSpace rest with
      | [] => [[c]]
      | t :: ts => (c :: t) :: ts

/-- The whitespace-delimited token sequence of a string: maximal runs of
non-whitespace characters, in order.  This is the notion of "token" used by
the spec's word-wrap properties. -/
def wsTokens : Str → List Str
  | [] => []
  | c :: rest =>
    if isWS c then wsTokens rest
    else
      match rest with
      | [] => [[c]]
      | d :: _ =>
        if isWS d then [c] :: wsTokens rest
        else
          match wsTokens rest with
          | [] => [[c]]
          | t :: ts => (c :: t) :: ts

/-- Join fragments with single spaces (the inverse of `splitSpace`). -/
def joinSp : List Str → Str
  | [] => []
  | [t] => t
  | t :: ts => t ++ ' ' :: joinSp ts

/-- Drop trailing whitespace characters. -/
def rstripWS : Str → Str
  | [] => []
  | c :: rest =>
    match rstripWS rest with
    | [] => if isWS c then [] else [c]
    | r => c :: r

/-- Model of JavaScript `String.prototype.trim` (used by the canvas variant's
`wrapText` when pushing lines). -/
def trimWS (s : Str) : Str := rstripWS (s.dropWhile isWS)

/-- Detects two consecutive spaces somewhere in a string. -/
def hasDoubleSpace : Str → Bool
  | ' ' :: ' ' :: _ => true
  | _ :: rest => hasDoubleSpace rest
  | [] => false

namespace SvgApi

/-- Loop of the SVG variant's `wrapText` (src/api/philosopher-quote.js,
second document, lines 141-159).  The accumulator is `currentLine`; note that
the source tests `(currentLine + word).length <= maxLen` WITHOUT the
separating space that it then inserts. -/
def wrapTextLoop (maxLen : Nat) : List Str → Str → List Str
  | [], currentLine => if currentLine = [] then [] else [currentLine]
  | word :: words, currentLine =>
    if (currentLine ++ word).length ≤ maxLen then
      wrapTextLoop maxLen words
        (currentLine ++ (if currentLine = [] then [] else [' ']) ++ word)
    else
      (if currentLine = [] then [] else [currentLine]) ++
        wrapTextLoop maxLen words word

/-- `wrapText(text, maxLen = 38)` of the SVG variant: greedy character-count
line fill over `text.split(' ')`. -/
def wrapText (text : Str) (maxLen : Nat) : List Str :=
  wrapTextLoop maxLen (splitSpace text) []

end SvgApi

namespace PngApi

/-- Loop of the PNG variant's `wrapText` (src/api/philosopher-quote.js, first
document, lines 37-54).  `μ` models `ctx.measureText(testLine).width`. -/
def wrapTextLoop (μ : Str → Nat) (maxWidth : Nat) : List Str → Str → List Str
  | [], line => if line = [] then [] else [line]
  | word :: words, line =>
    let testLine := if line = [] then word else line ++ ' ' :: word
    if maxWidth < μ testLine ∧ line ≠ [] then
      line :: wrapTextLoop μ maxWidth words word
    else
      wrapTextLoop μ maxWidth words testLine

/-- `wrapText(text, maxWidth)` of the PNG variant: greedy pixel-measured line
fill over `text.split(' ')`. -/
def wrapText (μ : Str → Nat) (maxWidth : Nat) (text : Str) : List Str :=
  wrapTextLoop μ maxWidth (splitSpace text) []

end PngApi

namespace CanvasApi

/-- Loop of the canvas variant's `wrapText` (src/unnamed/part_000, lines
73-90).  Each accepted word keeps a trailing space and pushed lines are
`line.trim()`ed. -/
def wrapTextLoop (μ : Str → Nat) (maxWidth : Nat) : List Str → Str → List Str
  | [], line => if line = [] then [] else [trimWS line]
  | word :: words, line =>
    let testLine := line ++ word ++ [' ']
    if maxWidth < μ testLine ∧ line ≠ [] then
      trimWS line :: wrapTextLoop μ maxWidth words (word ++ [' '])
    else
      wrapTextLoop μ maxWidth words testLine

/-- `wrapText(ctx, text, maxWidth)` of the canvas variant. -/
def wrapText (μ : Str → Nat) (maxWidth : Nat) (text : Str) : List Str :=
  wrapTextLoop μ maxWidth (splitSpace text) []

end CanvasApi

/-! XML escaping.  Both documents of `src/api/philosopher-quote.js` define an
`escapeXML`; the PNG variant chains five global `String.replace` calls, the
SVG variant does a single regex pass with a switch. -/

/-- The ampersand character. -/
def ampChar : Char := '&'

/-- The less-than character. -/
def ltChar : Char := '<'

/-- The greater-than character. -/
def gtChar : Char := '>'

/-- The double-quote character (written by code point to keep the source
free of quote characters outside string literals). -/
def quoteChar : Char := Char.ofNat 34

/-- The apostrophe character, by code point. -/
def aposChar : Char := Char.ofNat 39

/-- Entity text for the ampersand. -/
def entAmp : Str := ("&amp;").data

/-- Entity text for less-than. -/
def entLt : Str := ("&lt;").data

/-- Entity text for greater-than. -/
def entGt : Str := ("&gt;").data

/-- Entity text for the double quote. -/
def entQuot : Str := ("&quot;").data

/-- Entity text the PNG variant uses for the apostrophe. -/
def ent039 : Str := ampChar :: ("#039;").data

/-- Entity text the SVG variant uses for the apostrophe. -/
def entApos : Str := ("&apos;").data

/-- Model of JavaScript `str.replace(/target/g, rep)` for a single-character
pattern: one left-to-right pass, no rescanning of the replacement text. -/
def replaceAll (target : Char) (rep : Str) : Str → Str
  | [] => []
  | c :: rest => (if c = target then rep else [c]) ++ replaceAll target rep rest

namespace PngApi

/-- `escapeXML` of the PNG variant (lines 66-71): five chained global
replaces, ampersand first. -/
def escapeXML (s : Str) : Str :=
  replaceAll aposChar ent039
    (replaceAll quoteChar entQuot
      (replaceAll gtChar entGt
        (replaceAll ltChar entLt
          (replaceAll ampChar entAmp s))))

/-- Single-character encoding realized by `PngApi.escapeXML`; used only to
state and prove its properties. -/
def encodeChar (c : Char) : Str :=
  if c = ampChar then entAmp
  else if c = ltChar then entLt
  else if c = gtChar then entGt
  else if c = quoteChar then entQuot
  else if c = aposChar then ent039
  else [c]

end PngApi

namespace SvgApi

/-- Single-character encoding of the SVG variant's `escapeXML` switch
(lines 122-131). -/
def encodeChar (c : Char) : Str :=
  if c = ampChar then entAmp
  else if c = ltChar then entLt
  else if c = gtChar then entGt
  else if c = quoteChar then entQuot
  else if c = aposChar then entApos
  else [c]

/-- `escapeXML` of the SVG variant (lines 121-132): one regex pass replacing
each of the five special characters via the switch. -/
def escapeXML : Str → Str
  | [] => []
  | c :: rest => encodeChar c ++ escapeXML rest

end SvgApi

/-- Checks that every ampersand in a string is immediately followed by one of
the given entity tails; used to state "every remaining `&` begins an inserted
entity". -/
def ampOk (tails : List Str) : Str → Bool
  | [] => true
  | c :: rest =>
    (if c = ampChar then tails.any (fun t => t.isPrefixOf rest) else true) &&
      ampOk tails rest

/-- Entity tails produced by the PNG variant's `escapeXML`. -/
def pngTails : List Str :=
  [("amp;").data, ("lt;").data, ("gt;").data, ("quot;").data, ("#039;").data]

/-- Entity tails produced by the SVG variant's `escapeXML`. -/
def svgTails : List Str :=
  [("amp;").data, ("lt;").data, ("gt;").data, ("quot;").data, ("apos;").data]

/-- The em-dash character used before the author attribution. -/
def emDash : Char := Char.ofNat 0x2014

/-- The literal prefix of the author line in both SVG templates. -/
def emDashSp : Str := [emDash, ' ']

namespace SvgApi

/-- Fixed vertical spacing between wrapped quote lines (line 214). -/
def lineHeight : Nat := 28

/-- Top padding before the quote text (line 215). -/
def paddingTop : Nat := 40

/-- Bottom padding after the text (line 216). -/
def paddingBottom : Nat := 60

/-- `svgHeight = paddingTop + lineHeight * lineCount + paddingBottom`
(line 219). -/
def svgHeight (lineCount : Nat) : Nat :=
  paddingTop + lineHeight * lineCount + paddingBottom

/-- Base quote font size (line 227). -/
def baseFontSize : Nat := 26

/-- `fontSizeQuote = lineCount > 5 ? 22 : baseFontSize` (line 228). -/
def fontSizeQuote (lineCount : Nat) : Nat :=
  if 5 < lineCount then 22 else baseFontSize

/-- Author attribution text as embedded in the SVG template (line 285):
the already-escaped `safeAuthor` is passed through `escapeXML` a second time
inside the template literal. -/
def safeAuthorElement (authorName : Str) : Str :=
  escapeXML (emDashSp ++ escapeXML authorName)

end SvgApi

namespace PngApi

/-- Quote font size (line 59). -/
def fontSize : Nat := 28

/-- Vertical spacing between wrapped lines (line 60). -/
def lineHeight : Nat := 40

/-- Top margin (line 62). -/
def marginTop : Nat := 60

/-- Maximum pixel width for wrapped text (line 34). -/
def maxTextWidth : Nat := 740

/-- `totalHeight = marginTop * 2 + lines.length * lineHeight + 120`
(line 63). -/
def totalHeight (lineCount : Nat) : Nat :=
  marginTop * 2 + lineCount * lineHeight + 120

end PngApi

namespace CanvasApi

/-- Line height of the canvas variant (part_000 line 19). -/
def lineHeight : Nat := 28

/-- Margin (part_000 line 20). -/
def margin : Nat := 20

/-- Canvas width (part_000 line 18). -/
def width : Nat := 800

/-- `maxTextWidth = width - margin * 2` (part_000 line 21). -/
def maxTextWidth : Nat := width - margin * 2

/-- `totalHeight = quoteHeight + 80` with
`quoteHeight = lines.length * lineHeight` (part_000 lines 29-30). -/
def totalHeight (lineCount : Nat) : Nat :=
  lineCount * lineHeight + 80

end CanvasApi

/-- Model of `Math.floor(Math.random() * len)`, the quote selection used by
all three handlers; `r` stands for the draw of `Math.random()`, a rational in
`[0, 1)`. -/
def selectIndex (r : ℚ) (len : Nat) : Nat :=
  (Int.floor (r * (len : ℚ))).toNat

/-! JavaScript value model.  `response.json()` can produce any JSON value;
expressions inside the handlers additionally produce `undefined`.  Property
access on `null`/`undefined` throws a TypeError, modelled by
`Except.error ()`; uncaught errors are converted to the 500 fallback by the
handlers' `try`/`catch`. -/

inductive JsVal where
  | undefined
  | null
  | bool (b : Bool)
  | num (n : Int)
  | str (s : Str)
  | arr (elems : List JsVal)
  | obj (fields : List (Str × JsVal))

/-- JavaScript truthiness of the modelled values.  (`NaN`, which is also
falsy, does not occur as a JSON value and is not modelled.) -/
def jsTruthy : JsVal → Bool
  | .undefined => false
  | .null => false
  | .bool b => b
  | .num n => decide (n ≠ 0)
  | .str s => decide (s ≠ [])
  | .arr _ => true
  | .obj _ => true

/-- First binding of a key in an object literal, `undefined` when absent. -/
def lookupField (fields : List (Str × JsVal)) (k : Str) : JsVal :=
  match fields.find? (fun f => decide (f.1 = k)) with
  | some f => f.2
  | none => .undefined

/-- Property key "length". -/
def lengthKey : Str := ("length").data

/-- Property access `v.k`.  Throws on `undefined`/`null`; `length` of
strings and arrays is their element count; other primitive properties are
modelled as `undefined`. -/
def getProp : JsVal → Str → Except Unit JsVal
  | .undefined, _ => .error ()
  | .null, _ => .error ()
  | .obj fields, k => .ok (lookupField fields k)
  | .str s, k => .ok (if k = lengthKey then .num s.length else .undefined)
  | .arr xs, k => .ok (if k = lengthKey then .num xs.length else .undefined)
  | .bool _, _ => .ok .undefined
  | .num _, _ => .ok .undefined

/-- Optional chaining `v?.k`: short-circuits to `undefined` on
`undefined`/`null` instead of throwing. -/
def getPropOpt (v : JsVal) (k : Str) : Except Unit JsVal :=
  match v with
  | .undefined => .ok .undefined
  | .null => .ok .undefined
  | _ => getProp v k

/-- Index access `v[i]` for a natural index: array element or string
character, `undefined` past the end; numeric-string key lookup on objects;
throws on `undefined`/`null`. -/
def getIdx : JsVal → Nat → Except Unit JsVal
  | .undefined, _ => .error ()
  | .null, _ => .error ()
  | .arr xs, i => .ok (match xs.get? i with | some v => v | none => .undefined)
  | .str s, i => .ok (match s.get? i with | some c => .str [c] | none => .undefined)
  | .obj fields, i => .ok (lookupField fields (Nat.repr i).data)
  | .bool _, _ => .ok .undefined
  | .num _, _ => .ok .undefined

/-- JavaScript `a || b`: `a` when truthy, otherwise `b`. -/
def jsOr (a b : JsVal) : JsVal := if jsTruthy a then a else b

/-- String methods (`split`, `replace`) called on a non-string throw a
TypeError; on a string they see its text. -/
def asStr : JsVal → Except Unit Str
  | .str s => .ok s
  | _ => .error ()

mutual

/-- String coercion as performed by template literals and `fillText`.
Nested array stringification follows `Array.prototype.toString` (elements
joined by commas); objects print as "[object Object]". -/
def jsToString : JsVal → Str
  | .undefined => ("undefined").data
  | .null => ("null").data
  | .bool true => ("true").data
  | .bool false => ("false").data
  | .num n => (Int.repr n).data
  | .str s => s
  | .obj _ => ("[object Object]").data
  | .arr xs => jsToStringList xs

/-- Stringification of an array's elements, comma separated. -/
def jsToStringList : List JsVal → Str
  | [] => []
  | [x] => jsToString x
  | x :: xs => jsToString x ++ ',' :: jsToStringList xs

end

/-- Outcome of an outbound `fetch` as seen by the handlers: a network error
(rejected promise), or a response with an `ok` flag and a body whose
`.json()` either parses or throws. -/
inductive FetchRes where
  | netErr
  | resp (ok : Bool) (body : Except Unit JsVal)

/-- Model of `Array.isArray`. -/
def jsIsArray : JsVal → Bool
  | .arr _ => true
  | _ => false

/-- Guard of the PNG and canvas handlers:
`!Array.isArray(quotes) || quotes.length === 0`; the second disjunct is the
strict comparison `quotes.length === 0`, reached only for arrays. -/
def guard1Fails (q : JsVal) : Bool :=
  !(jsIsArray q) ||
    (match q with
     | .arr xs => decide (xs.length = 0)
     | _ => false)

/-- Guard of the SVG handler: `!quotesData || !quotesData.length`.  Note
this accepts any truthy value with a truthy `length` property, arrays or
not. -/
def guard2Pass (q : JsVal) : Bool :=
  jsTruthy q &&
    (match getProp q lengthKey with
     | .ok v => jsTruthy v
     | .error _ => false)

/-- Property key "philosopher". -/
def philosopherKey : Str := ("philosopher").data

/-- Property key "id". -/
def idKey : Str := ("id").data

/-- Property key "name". -/
def nameKey : Str := ("name").data

/-- Property key "quote". -/
def quoteKey : Str := ("quote").data

/-- Property key "work". -/
def workKey : Str := ("work").data

/-- Property key "year". -/
def yearKey : Str := ("year").data

namespace SvgApi

/-- Placeholder author name (line 179). -/
def unknownPhilosopher : Str := ("Unknown Philosopher").data

/-- Default quote text (line 199). -/
def noQuoteAvailable : Str := ("No quote available.").data

/-- Resolution of `authorName` in the SVG handler (lines 179-196): default
"Unknown Philosopher", overridden only when the philosopher id is truthy,
the detail fetch does not reject, the response is `ok`, its JSON parses and
carries a truthy `name`. -/
def detailAuthor (philosopherId : JsVal) (detail : FetchRes) : JsVal :=
  if jsTruthy philosopherId then
    match detail with
    | .netErr => .str unknownPhilosopher
    | .resp ok body =>
      if ok then
        match body with
        | .error _ => .str unknownPhilosopher
        | .ok pData =>
          match getPropOpt pData nameKey with
          | .error _ => .str unknownPhilosopher
          | .ok nameV => if jsTruthy nameV then nameV else .str unknownPhilosopher
      else .str unknownPhilosopher
  else .str unknownPhilosopher

/-- The dynamic content of the composed SVG document (step 7 of the
handler); the surrounding fixed markup and the colour constants are not
modelled. -/
structure SvgDoc where
  height : Nat
  fontSize : Nat
  tspanLines : List Str
  authorText : Str
  workText : Str
  yearText : Option Str

/-- Body of an SVG-handler response: the fallback error SVG of the catch
block, or a composed document. -/
inductive RespBody where
  | errorSvg
  | doc (d : SvgDoc)

/-- HTTP response of the SVG handler. -/
structure Resp where
  status : Nat
  contentType : Option Str
  cacheControl : Option Str
  body : RespBody

/-- Content type set on success (line 295). -/
def svgContentType : Str := ("image/svg+xml").data

/-- Cache header set on success (line 296). -/
def cacheHeader : Str := ("public, max-age=3600").data

/-- The SVG handler's `try` block (lines 163-298).  `Except.error ()` stands
for a thrown error, to be caught by the handler's `catch`.  The selection
`Math.floor(Math.random() * quotesData.length)` multiplies by the `length`
property; a non-numeric `length` (possible only for object bodies) would
give a NaN index whose lookup misses, modelled by `undefined`. -/
def handlerCore (quotesBody : Except Unit JsVal) (r : ℚ) (detail : FetchRes) :
    Except Unit Resp :=
  match quotesBody with
  | .error e => .error e
  | .ok quotesData =>
    if jsTruthy quotesData = false then .error () else
    match getProp quotesData lengthKey with
    | .error e => .error e
    | .ok lenV =>
      if jsTruthy lenV = false then .error () else
      match (match lenV with
             | .num n => getIdx quotesData (selectIndex r n.toNat)
             | _ => Except.ok JsVal.undefined) with
      | .error e => .error e
      | .ok quoteObj =>
        match getProp quoteObj philosopherKey with
        | .error e => .error e
        | .ok philosopherV =>
          match getPropOpt philosopherV idKey with
          | .error e => .error e
          | .ok philosopherId =>
            let authorName := detailAuthor philosopherId detail
            match getProp quoteObj quoteKey with
            | .error e => .error e
            | .ok quoteV =>
              match getProp quoteObj workKey with
              | .error e => .error e
              | .ok workV =>
                match getProp quoteObj yearKey with
                | .error e => .error e
                | .ok yearV =>
                  let quote := jsOr quoteV (.str noQuoteAvailable)
                  let work := jsOr workV (.str [])
                  let year := jsOr yearV (.str [])
                  match asStr quote with
                  | .error e => .error e
                  | .ok quoteS =>
                    let safeQuote := escapeXML quoteS
                    match asStr authorName with
                    | .error e => .error e
                    | .ok authorS =>
                      match asStr work with
                      | .error e => .error e
                      | .ok workS =>
                        let safeWork := escapeXML workS
                        match asStr year with
                        | .error e => .error e
                        | .ok yearS =>
                          let safeYear := escapeXML yearS
                          let lines := wrapText safeQuote 38
                          let lineCount := lines.length
                          Except.ok
                            { status := 200
                              contentType := some svgContentType
                              cacheControl := some cacheHeader
                              body := RespBody.doc
                                { height := svgHeight lineCount
                                  fontSize := fontSizeQuote lineCount
                                  tspanLines := lines
                                  authorText := safeAuthorElement authorS
                                  workText := safeWork
                                  yearText :=
                                    if safeYear = [] then none else some safeYear } }

/-- Response of the catch block (lines 299-307): status 500 with the minimal
error SVG; `res.send` of a string sets no image content type. -/
def errorResp : Resp :=
  { status := 500, contentType := none, cacheControl := none,
    body := RespBody.errorSvg }

/-- The SVG handler: the `try` block with its `catch` converting any thrown
error into the 500 fallback SVG. -/
def handler (quotesBody : Except Unit JsVal) (r : ℚ) (detail : FetchRes) :
    Resp :=
  match handlerCore quotesBody r detail with
  | .ok resp => resp
  | .error _ => errorResp

end SvgApi

namespace PngApi

/-- Resolution of `philosopherName` in the PNG handler (lines 17-27):
default `''`; the inner `try` swallows fetch/parse failures and a
`pData.name` access on a nullish body; the response's `ok` flag is never
consulted. -/
def detailName (philosopherId : JsVal) (detail : FetchRes) : JsVal :=
  if jsTruthy philosopherId then
    match detail with
    | .netErr => .str []
    | .resp _ body =>
      match body with
      | .error _ => .str []
      | .ok pData =>
        match getProp pData nameKey with
        | .error _ => .str []
        | .ok nameV => jsOr nameV (.str [])
  else .str []

/-- Dynamic content of the SVG the PNG handler composes and rasterizes
(lines 74-93): the escaped quote lines and the three conditional trailing
elements, each `none` when its source value is falsy. -/
structure PngDoc where
  totalHeight : Nat
  quoteLines : List Str
  authorElem : Option Str
  workElem : Option Str
  yearElem : Option Str

/-- Body of a PNG-handler response. -/
inductive RespBody where
  | errText (s : Str)
  | png (d : PngDoc)

/-- HTTP response of the PNG handler. -/
structure Resp where
  status : Nat
  contentType : Option Str
  body : RespBody

/-- Content type on success (line 104). -/
def pngContentType : Str := ("image/png").data

/-- Plain-text body of the catch block (line 109). -/
def failedText : Str := ("Failed to generate image").data

/-- The PNG handler's `try` block (lines 6-106).  `μ` models
`ctx.measureText` under the font set on line 32. -/
def handlerCore (quotesBody : Except Unit JsVal) (r : ℚ) (μ : Str → Nat)
    (detail : FetchRes) : Except Unit Resp :=
  match quotesBody with
  | .error e => .error e
  | .ok quotes =>
    if guard1Fails quotes then .error () else
    match quotes with
    | .arr xs =>
      match getIdx (.arr xs) (selectIndex r xs.length) with
      | .error e => .error e
      | .ok q =>
        match getProp q quoteKey with
        | .error e => .error e
        | .ok quoteV =>
          let quote := jsOr quoteV (.str ("No quote").data)
          match getProp q workKey with
          | .error e => .error e
          | .ok workV =>
            let work := jsOr workV (.str [])
            match getProp q yearKey with
            | .error e => .error e
            | .ok yearV =>
              let year := jsOr yearV (.str [])
              match getProp q philosopherKey with
              | .error e => .error e
              | .ok philosopherV =>
                match getPropOpt philosopherV idKey with
                | .error e => .error e
                | .ok philosopherId =>
                  let philosopherName := detailName philosopherId detail
                  match asStr quote with
                  | .error e => .error e
                  | .ok quoteS =>
                    let lines := wrapText μ maxTextWidth quoteS
                    match (if jsTruthy philosopherName then
                             (asStr philosopherName).map
                               (fun s => some (emDashSp ++ escapeXML s))
                           else .ok none) with
                    | .error e => .error e
                    | .ok authorElem =>
                      match (if jsTruthy work then
                               (asStr work).map (fun s => some (escapeXML s))
                             else .ok none) with
                      | .error e => .error e
                      | .ok workElem =>
                        match (if jsTruthy year then
                                 (asStr year).map (fun s => some (escapeXML s))
                               else .ok none) with
                        | .error e => .error e
                        | .ok yearElem =>
                          Except.ok
                            { status := 200
                              contentType := some pngContentType
                              body := RespBody.png
                                { totalHeight := totalHeight lines.length
                                  quoteLines := lines.map escapeXML
                                  authorElem := authorElem
                                  workElem := workElem
                                  yearElem := yearElem } }
    | _ => .error ()

/-- Response of the catch block (lines 107-110). -/
def errorResp : Resp :=
  { status := 500, contentType := none, body := RespBody.errText failedText }

/-- The PNG handler with its `catch`. -/
def handler (quotesBody : Except Unit JsVal) (r : ℚ) (μ : Str → Nat)
    (detail : FetchRes) : Resp :=
  match handlerCore quotesBody r μ detail with
  | .ok resp => resp
  | .error _ => errorResp

end PngApi

namespace CanvasApi

/-- Destructuring default of part_000 line 15: the default applies exactly
when the property is `undefined` (not merely falsy). -/
def destructDefault (v : JsVal) (d : Str) : JsVal :=
  match v with
  | .undefined => .str d
  | x => x

/-- Dynamic content drawn on the canvas (part_000 lines 41-62). -/
structure CanvasDoc where
  totalHeight : Nat
  lines : List Str
  workLine : Str
  yearLine : Str

/-- Body of a canvas-handler response. -/
inductive RespBody where
  | errText (s : Str)
  | png (d : CanvasDoc)

/-- HTTP response of the canvas handler. -/
structure Resp where
  status : Nat
  contentType : Option Str
  body : RespBody

/-- Plain-text body of the catch block (part_000 line 68). -/
def failedText : Str := ("Failed to generate quote image").data

/-- The canvas handler's `try` block (part_000 lines 6-65).  `μ` models
`tempCtx.measureText` under the font of line 26.  Destructuring
`quotes[random]` throws on `undefined`/`null`. -/
def handlerCore (quotesBody : Except Unit JsVal) (r : ℚ) (μ : Str → Nat) :
    Except Unit Resp :=
  match quotesBody with
  | .error e => .error e
  | .ok quotes =>
    if guard1Fails quotes then .error () else
    match quotes with
    | .arr xs =>
      match getIdx (.arr xs) (selectIndex r xs.length) with
      | .error e => .error e
      | .ok sel =>
        match sel with
        | .undefined => .error ()
        | .null => .error ()
        | _ =>
          match getProp sel quoteKey with
          | .error e => .error e
          | .ok quoteV =>
            let quote := destructDefault quoteV ("No quote").data
            match getProp sel workKey with
            | .error e => .error e
            | .ok workV =>
              let work := destructDefault workV ("Unknown Work").data
              match getProp sel yearKey with
              | .error e => .error e
              | .ok yearV =>
                let year := destructDefault yearV ("Unknown Year").data
                match asStr quote with
                | .error e => .error e
                | .ok quoteS =>
                  let lines := wrapText μ maxTextWidth quoteS
                  Except.ok
                    { status := 200
                      contentType := some (("image/png").data)
                      body := RespBody.png
                        { totalHeight := totalHeight lines.length
                          lines := lines
                          workLine := emDashSp ++ jsToString work
                          yearLine := jsToString year } }
    | _ => .error ()

/-- Response of the catch block (part_000 lines 66-69). -/
def errorResp : Resp :=
  { status := 500, contentType := none, body := RespBody.errText failedText }

/-- The canvas handler with its `catch`. -/
def handler (quotesBody : Except Unit JsVal) (r : ℚ) (μ : Str → Nat) : Resp :=
  match handlerCore quotesBody r μ with
  | .ok resp => resp
  | .error _ => errorResp

end CanvasApi

/-- Projection used in statements: the wrapped quote lines of an SVG-handler
response, when it carries a document. -/
def SvgApi.Resp.docLines : SvgApi.Resp → Option (List Str)
  | { body := SvgApi.RespBody.doc d, .. } => some d.tspanLines
  | _ => none

/-- Projection used in statements: the author line of an SVG-handler
response, when it carries a document. -/
def SvgApi.Resp.docAuthor : SvgApi.Resp → Option Str
  | { body := SvgApi.RespBody.doc d, .. } => some d.authorText
  | _ => none

/-- Projection used in statements: the optional author element of a
PNG-handler response, when it carries a document. -/
def PngApi.Resp.docAuthor : PngApi.Resp → Option (Option Str)
  | { body := PngApi.RespBody.png d, .. } => some d.authorElem
  | _ => none

/-- Sample upstream quote object with quote text "Alpha". -/
def sampleQuoteAlpha : JsVal := .obj [(quoteKey, .str ("Alpha").data)]

/-- Sample upstream quote object with quote text "Beta". -/
def sampleQuoteBeta : JsVal := .obj [(quoteKey, .str ("Beta").data)]

/-- Sample two-element quote collection. -/
def twoQuoteColl : JsVal := .arr [sampleQuoteAlpha, sampleQuoteBeta]

/-- Sample quote object carrying a philosopher id, so that the detail fetch
is attempted. -/
def sampleQuoteWithPhil : JsVal :=
  .obj [(quoteKey, .str ("Hi").data),
        (philosopherKey, .obj [(idKey, .str ("p1").data)])]

/-- Join of a per-character encoding; both `escapeXML` variants compute
`encJoin` of their respective `encodeChar` (proved below). -/
def encJoin (enc : Char → Str) : Str → Str
  | [] => []
  | c :: s => enc c ++ encJoin enc s

/-- Detail-fetch outcomes that the SVG handler treats as failures: the fetch
rejects, the response is not `ok`, its body fails to parse, or the parsed
body lacks a truthy `name`. -/
def SvgApi.detailFails : FetchRes → Bool
  | .netErr => true
  | .resp ok body =>
    !ok ||
      (match body with
       | .error _ => true
       | .ok pData =>
         match getPropOpt pData nameKey with
         | .error _ => true
         | .ok nameV => !(jsTruthy nameV))

/-- Detail-fetch outcomes after which the PNG handler keeps the empty
philosopher name: the fetch rejects, the body fails to parse, a nullish body
makes `pData.name` throw, or the name is falsy.  (Unlike the SVG variant, a
non-`ok` response with a parseable body carrying a name is still used.) -/
def PngApi.detailFails : FetchRes → Bool
  | .netErr => true
  | .resp _ body =>
    match body with
    | .error _ => true
    | .ok pData =>
      match getProp pData nameKey with
      | .error _ => true
      | .ok nameV => !(jsTruthy nameV)

/-! Infrastructure lemmas about tokenization. -/

@[simp] theorem wsTokens_nil : wsTokens [] = [] := rfl

theorem splitSpace_cons_space (rest : Str) :
    splitSpace (' ' :: rest) = [] :: splitSpace rest := by
  rw [splitSpace.eq_def]
  simp

theorem splitSpace_cons_nonspace {c : Char} {rest t : Str} {ts : List Str}
    (h : ¬ c = ' ') (hts : splitSpace rest = t :: ts) :
    splitSpace (c :: rest) = (c :: t) :: ts := by
  rw [splitSpace.eq_def]
  simp [h, hts]

theorem splitSpace_ne_nil (s : Str) : splitSpace s ≠ [] := by
  induction s with
  | nil => simp [splitSpace]
  | cons c rest ih =>
    by_cases h : c = ' '
    · subst h
      rw [splitSpace_cons_space]
      simp
    · obtain ⟨t, ts, hts⟩ : ∃ t ts, splitSpace rest = t :: ts := by
        cases h4 : splitSpace rest with
        | nil => exact absurd h4 ih
        | cons t ts => exact ⟨t, ts, rfl⟩
      rw [splitSpace_cons_nonspace h hts]
      simp

theorem wsTokens_cons_ws {c : Char} (rest : Str) (h : isWS c = true) :
    wsTokens (c :: rest) = wsTokens rest := by
  rw [wsTokens.eq_def]
  simp only [h, if_true]

theorem wsTokens_singleton {c : Char} (h : isWS c = false) :
    wsTokens [c] = [[c]] := by
  rw [wsTokens.eq_def]
  simp only [h]
  rfl

theorem wsTokens_cons_cons_ws {c d : Char} (rest : Str) (h : isWS c = false)
    (hd : isWS d = true) :
    wsTokens (c :: d :: rest) = [c] :: wsTokens (d :: rest) := by
  rw [wsTokens.eq_def]
  simp only [h, hd]
  rfl

theorem wsTokens_cons_cons_nonws {c d : Char} {rest t : Str} {ts : List Str}
    (h : isWS c = false) (hd : isWS d = false)
    (hts : wsTokens (d :: rest) = t :: ts) :
    wsTokens (c :: d :: rest) = (c :: t) :: ts := by
  rw [wsTokens.eq_def]
  simp only [h, hd, hts]
  rfl

theorem wsTokens_ne_nil :
    ∀ (s : Str) (c : Char), isWS c = false → wsTokens (c :: s) ≠ [] := by
  intro s
  induction s with
  | nil => intro c h; rw [wsTokens_singleton h]; simp
  | cons d rest2 ih =>
    intro c h
    by_cases hd : isWS d
    · rw [wsTokens_cons_cons_ws rest2 h hd]
      simp
    · rw [Bool.not_eq_true] at hd
      obtain ⟨t, ts, hts⟩ : ∃ t ts, wsTokens (d :: rest2) = t :: ts := by
        cases h4 : wsTokens (d :: rest2) with
        | nil => exact absurd h4 (ih d hd)
        | cons t ts => exact ⟨t, ts, rfl⟩
      rw [wsTokens_cons_cons_nonws h hd hts]
      simp

theorem wsTokens_append_ws {c : Char} (h : isWS c = true) :
    ∀ (a b : Str), wsTokens (a ++ c :: b) = wsTokens a ++ wsTokens b := by
  intro a
  induction a with
  | nil => intro b; rw [List.nil_append, wsTokens_cons_ws b h]; rfl
  | cons d a2 ih =>
    intro b
    by_cases hd : isWS d
    · rw [show (d :: a2) ++ c :: b = d :: (a2 ++ c :: b) from rfl,
        wsTokens_cons_ws _ hd, wsTokens_cons_ws _ hd, ih]
    · rw [Bool.not_eq_true] at hd
      match a2 with
      | [] =>
        rw [show ([d] : Str) ++ c :: b = d :: c :: b from rfl,
          wsTokens_cons_cons_ws b hd h, wsTokens_cons_ws _ h,
          wsTokens_singleton hd]
        simp
      | e :: a3 =>
        by_cases he : isWS e
        · rw [show (d :: e :: a3) ++ c :: b = d :: (e :: a3 ++ c :: b) from rfl]
          rw [show (e :: a3 ++ c :: b) = e :: (a3 ++ c :: b) from rfl]
          rw [wsTokens_cons_cons_ws _ hd he, wsTokens_cons_cons_ws _ hd he]
          have hih := ih b
          rw [show (e :: a3) ++ c :: b = e :: (a3 ++ c :: b) from rfl] at hih
          rw [hih]
          simp
        · rw [Bool.not_eq_true] at he
          obtain ⟨u, us, hus⟩ : ∃ u us, wsTokens (e :: a3) = u :: us := by
            cases h4 : wsTokens (e :: a3) with
            | nil => exact absurd h4 (wsTokens_ne_nil a3 e he)
            | cons u us => exact ⟨u, us, rfl⟩
          have hih := ih b
          rw [show (e :: a3) ++ c :: b = e :: (a3 ++ c :: b) from rfl] at hih
          rw [hus] at hih
          have hts : wsTokens (e :: (a3 ++ c :: b)) = u :: (us ++ wsTokens b) := by
            rw [hih]; simp
          rw [show (d :: e :: a3) ++ c :: b = d :: e :: (a3 ++ c :: b) from rfl]
          rw [wsTokens_cons_cons_nonws hd he hts,
            wsTokens_cons_cons_nonws hd he hus]
          simp

theorem wsTokens_allWS {l : Str} (h : l.all isWS = true) : wsTokens l = [] := by
  induction l with
  | nil => rfl
  | cons c rest ih =>
    simp only [List.all_cons, Bool.and_eq_true] at h
    rw [wsTokens_cons_ws _ h.1, ih h.2]

theorem wsTokens_append_allWS {w : Str} (h : w.all isWS = true) (x : Str) :
    wsTokens (x ++ w) = wsTokens x := by
  match w with
  | [] => simp
  | c :: rest =>
    simp only [List.all_cons, Bool.and_eq_true] at h
    rw [wsTokens_append_ws h.1 x rest, wsTokens_allWS h.2, List.append_nil]

theorem joinSp_cons_cons (t u : Str) (ts : List Str) :
    joinSp (t :: u :: ts) = t ++ ' ' :: joinSp (u :: ts) := rfl

theorem joinSp_splitSpace (s : Str) : joinSp (splitSpace s) = s := by
  induction s with
  | nil => rfl
  | cons c rest ih =>
    obtain ⟨t, ts, hts⟩ : ∃ t ts, splitSpace rest = t :: ts := by
      cases h4 : splitSpace rest with
      | nil => exact absurd h4 (splitSpace_ne_nil rest)
      | cons t ts => exact ⟨t, ts, rfl⟩
    by_cases h : c = ' '
    · subst h
      rw [splitSpace_cons_space, hts, joinSp_cons_cons]
      rw [hts] at ih
      simp [ih]
    · rw [splitSpace_cons_nonspace h hts]
      rw [hts] at ih
      match ts with
      | [] => simpa [joinSp] using ih
      | u :: ts2 =>
        rw [joinSp_cons_cons] at ih ⊢
        simp [ih]

theorem wsTokens_joinSp (ts : List Str) :
    wsTokens (joinSp ts) = (ts.map wsTokens).flatten := by
  match ts with
  | [] => rfl
  | [t] => simp [joinSp]
  | t :: u :: ts2 =>
    rw [joinSp_cons_cons, wsTokens_append_ws (by decide : isWS ' ' = true),
      wsTokens_joinSp (u :: ts2)]
    simp

theorem wsTokens_splitSpace_join (s : Str) :
    ((splitSpace s).map wsTokens).flatten = wsTokens s := by
  rw [← wsTokens_joinSp, joinSp_splitSpace]

theorem rstripWS_cons_nil {c : Char} {rest : Str} (h4 : rstripWS rest = []) :
    rstripWS (c :: rest) = if isWS c then [] else [c] := by
  rw [rstripWS.eq_def]
  simp only [h4]

theorem rstripWS_cons_cons {c r : Char} {rest rs : Str}
    (h4 : rstripWS rest = r :: rs) :
    rstripWS (c :: rest) = c :: r :: rs := by
  rw [rstripWS.eq_def]
  simp only [h4]

theorem rstripWS_spec (s : Str) :
    ∃ w, s = rstripWS s ++ w ∧ w.all isWS = true := by
  induction s with
  | nil => exact ⟨[], rfl, rfl⟩
  | cons c rest ih =>
    obtain ⟨w, hw, hall⟩ := ih
    cases h4 : rstripWS rest with
    | nil =>
      rw [h4] at hw
      simp only [List.nil_append] at hw
      by_cases hc : isWS c
      · refine ⟨c :: w, ?_, by simp [hc, hall]⟩
        rw [rstripWS_cons_nil h4, if_pos hc]
        simp [hw]
      · refine ⟨w, ?_, hall⟩
        rw [rstripWS_cons_nil h4, if_neg hc]
        simp [hw]
    | cons r rs =>
      refine ⟨w, ?_, hall⟩
      rw [rstripWS_cons_cons h4]
      rw [h4] at hw
      simp [hw]

theorem wsTokens_rstripWS (s : Str) : wsTokens (rstripWS s) = wsTokens s := by
  obtain ⟨w, hw, hall⟩ := rstripWS_spec s
  conv_rhs => rw [hw]
  rw [wsTokens_append_allWS hall]

theorem wsTokens_dropWhileWS (s : Str) :
    wsTokens (s.dropWhile isWS) = wsTokens s := by
  induction s with
  | nil => rfl
  | cons c rest ih =>
    by_cases hc : isWS c
    · rw [List.dropWhile_cons_of_pos hc, ih, wsTokens_cons_ws _ hc]
    · rw [List.dropWhile_cons_of_neg hc]

theorem wsTokens_trimWS (s : Str) : wsTokens (trimWS s) = wsTokens s := by
  rw [trimWS, wsTokens_rstripWS, wsTokens_dropWhileWS]

theorem rstripWS_length_le (s : Str) : (rstripWS s).length ≤ s.length := by
  obtain ⟨w, hw, _⟩ := rstripWS_spec s
  conv_rhs => rw [hw]
  simp

theorem trimWS_length_le (s : Str) : (trimWS s).length ≤ s.length := by
  calc (trimWS s).length ≤ (s.dropWhile isWS).length := rstripWS_length_le _
    _ ≤ s.length := ((List.dropWhile_suffix isWS).sublist).length_le

/-! Token preservation of the three wrappers. -/

theorem svg_wrapTextLoop_tokens (maxLen : Nat) :
    ∀ (words : List Str) (currentLine : Str),
      ((SvgApi.wrapTextLoop maxLen words currentLine).map wsTokens).flatten
        = wsTokens currentLine ++ (words.map wsTokens).flatten := by
  intro words
  induction words with
  | nil =>
    intro cur
    by_cases h : cur = []
    · subst h; simp [SvgApi.wrapTextLoop]
    · simp [SvgApi.wrapTextLoop, h]
  | cons w ws ih =>
    intro cur
    simp only [SvgApi.wrapTextLoop]
    by_cases hlen : (cur ++ w).length ≤ maxLen
    · rw [if_pos hlen, ih]
      by_cases h : cur = []
      · subst h; simp
      · rw [if_neg h]
        simp [wsTokens_append_ws (show isWS ' ' = true by decide) cur w]
    · rw [if_neg hlen, List.map_append, List.flatten_append, ih]
      by_cases h : cur = []
      · subst h; simp
      · rw [if_neg h]; simp

theorem png_wrapTextLoop_tokens (μ : Str → Nat) (maxWidth : Nat) :
    ∀ (words : List Str) (line : Str),
      ((PngApi.wrapTextLoop μ maxWidth words line).map wsTokens).flatten
        = wsTokens line ++ (words.map wsTokens).flatten := by
  intro words
  induction words with
  | nil =>
    intro line
    by_cases h : line = []
    · subst h; simp [PngApi.wrapTextLoop]
    · simp [PngApi.wrapTextLoop, h]
  | cons w ws ih =>
    intro line
    simp only [PngApi.wrapTextLoop]
    by_cases hcond : maxWidth < μ (if line = [] then w else line ++ ' ' :: w) ∧ line ≠ []
    · rw [if_pos hcond]
      have h := hcond.2
      rw [List.map_cons, List.flatten_cons, ih]
      simp
    · rw [if_neg hcond, ih]
      by_cases h : line = []
      · subst h; simp
      · rw [if_neg h, wsTokens_append_ws (by decide) line w]
        simp

theorem canvas_wrapTextLoop_tokens (μ : Str → Nat) (maxWidth : Nat) :
    ∀ (words : List Str) (line : Str),
      (line = [] ∨ ∃ l2, line = l2 ++ [' ']) →
      ((CanvasApi.wrapTextLoop μ maxWidth words line).map wsTokens).flatten
        = wsTokens line ++ (words.map wsTokens).flatten := by
  intro words
  induction words with
  | nil =>
    intro line hinv
    by_cases h : line = []
    · subst h; simp [CanvasApi.wrapTextLoop]
    · simp [CanvasApi.wrapTextLoop, h, wsTokens_trimWS]
  | cons w ws ih =>
    intro line hinv
    have hsp : ([' '] : Str).all isWS = true := by decide
    have happ : wsTokens (line ++ w ++ [' ']) = wsTokens line ++ wsTokens w := by
      rcases hinv with h | ⟨l2, rfl⟩
      · subst h
        simp only [List.nil_append]
        exact wsTokens_append_allWS hsp w
      · rw [List.append_assoc, List.append_assoc,
          show ([' '] : Str) ++ (w ++ [' ']) = ' ' :: (w ++ [' ']) from rfl,
          wsTokens_append_ws (by decide) l2 (w ++ [' ']),
          wsTokens_append_allWS hsp w, wsTokens_append_allWS hsp l2]
    simp only [CanvasApi.wrapTextLoop]
    by_cases hcond : maxWidth < μ (line ++ w ++ [' ']) ∧ line ≠ []
    · rw [if_pos hcond, List.map_cons, List.flatten_cons,
        ih (w ++ [' ']) (Or.inr ⟨w, rfl⟩), wsTokens_trimWS,
        wsTokens_append_allWS hsp w]
      simp
    · rw [if_neg hcond, ih (line ++ w ++ [' '])
        (Or.inr ⟨line ++ w, by simp⟩), happ]
      simp

/-! Line bounds of the three wrappers. -/

theorem svg_wrapTextLoop_bound (maxLen : Nat) (W : List Str) :
    ∀ (words : List Str) (cur : Str),
      (∀ w ∈ words, w ∈ W) →
      (cur.length ≤ maxLen + 1 ∨ cur ∈ W) →
      ∀ line ∈ SvgApi.wrapTextLoop maxLen words cur,
        line.length ≤ maxLen + 1 ∨ line ∈ W := by
  intro words
  induction words with
  | nil =>
    intro cur hws hcur line hline
    by_cases h : cur = [] <;> simp [SvgApi.wrapTextLoop, h] at hline
    subst hline; exact hcur
  | cons w ws ih =>
    intro cur hws hcur line hline
    have hwW : w ∈ W := hws w (by simp)
    have hwsW : ∀ v ∈ ws, v ∈ W := fun v hv => hws v (by simp [hv])
    simp only [SvgApi.wrapTextLoop] at hline
    by_cases hlen : (cur ++ w).length ≤ maxLen
    · rw [if_pos hlen] at hline
      refine ih _ hwsW ?_ line hline
      by_cases h : cur = []
      · subst h
        left
        simpa using Nat.le_succ_of_le (by simpa using hlen)
      · rw [if_neg h]
        left
        simp only [List.length_append] at hlen ⊢
        simp
        omega
    · rw [if_neg hlen] at hline
      by_cases h : cur = []
      · subst h
        simp only [if_pos rfl, List.nil_append] at hline
        exact ih _ hwsW (Or.inr hwW) line hline
      · rw [if_neg h] at hline
        rcases List.mem_append.mp hline with hl | hl
        · simp only [List.mem_singleton] at hl
          subst hl; exact hcur
        · exact ih _ hwsW (Or.inr hwW) line hl

theorem png_wrapTextLoop_bound (μ : Str → Nat) (maxWidth : Nat) (W : List Str) :
    ∀ (words : List Str) (line : Str),
      (∀ w ∈ words, w ∈ W) →
      (line = [] ∨ μ line ≤ maxWidth ∨ line ∈ W) →
      ∀ l ∈ PngApi.wrapTextLoop μ maxWidth words line,
        μ l ≤ maxWidth ∨ l ∈ W := by
  intro words
  induction words with
  | nil =>
    intro line hws hline l hl
    by_cases h : line = [] <;> simp [PngApi.wrapTextLoop, h] at hl
    subst hl
    rcases hline with h2 | h2 | h2
    · exact absurd h2 h
    · exact Or.inl h2
    · exact Or.inr h2
  | cons w ws ih =>
    intro line hws hline l hl
    have hwW : w ∈ W := hws w (by simp)
    have hwsW : ∀ v ∈ ws, v ∈ W := fun v hv => hws v (by simp [hv])
    simp only [PngApi.wrapTextLoop] at hl
    by_cases hcond : maxWidth < μ (if line = [] then w else line ++ ' ' :: w) ∧ line ≠ []
    · rw [if_pos hcond] at hl
      rcases List.mem_cons.mp hl with hl2 | hl2
      · subst hl2
        rcases hline with h2 | h2 | h2
        · exact absurd h2 hcond.2
        · exact Or.inl h2
        · exact Or.inr h2
      · exact ih _ hwsW (Or.inr (Or.inr hwW)) l hl2
    · rw [if_neg hcond] at hl
      refine ih _ hwsW ?_ l hl
      by_cases h : line = []
      · rw [if_pos h]
        exact Or.inr (Or.inr hwW)
      · rw [if_neg h]
        right; left
        rcases Decidable.not_and_iff_or_not.mp hcond with h2 | h2
        · rw [if_neg h] at h2; omega
        · exact absurd h h2

theorem canvas_wrapTextLoop_bound (μ : Str → Nat) (maxWidth : Nat) (W : List Str)
    (hμ : ∀ s, μ (trimWS s) ≤ μ s) :
    ∀ (words : List Str) (line : Str),
      (∀ w ∈ words, w ∈ W) →
      (line = [] ∨ μ line ≤ maxWidth ∨ ∃ w ∈ W, line = w ++ [' ']) →
      ∀ l ∈ CanvasApi.wrapTextLoop μ maxWidth words line,
        μ l ≤ maxWidth ∨ ∃ w ∈ W, l = trimWS (w ++ [' ']) := by
  intro words
  induction words with
  | nil =>
    intro line hws hline l hl
    by_cases h : line = [] <;> simp [CanvasApi.wrapTextLoop, h] at hl
    subst hl
    rcases hline with h2 | h2 | ⟨w, hw, h2⟩
    · exact absurd h2 h
    · exact Or.inl (le_trans (hμ line) h2)
    · exact Or.inr ⟨w, hw, by rw [h2]⟩
  | cons w ws ih =>
    intro line hws hline l hl
    have hwW : w ∈ W := hws w (by simp)
    have hwsW : ∀ v ∈ ws, v ∈ W := fun v hv => hws v (by simp [hv])
    simp only [CanvasApi.wrapTextLoop] at hl
    by_cases hcond : maxWidth < μ (line ++ w ++ [' ']) ∧ line ≠ []
    · rw [if_pos hcond] at hl
      rcases List.mem_cons.mp hl with hl2 | hl2
      · subst hl2
        rcases hline with h2 | h2 | ⟨v, hv, h2⟩
        · exact absurd h2 hcond.2
        · exact Or.inl (le_trans (hμ line) h2)
        · exact Or.inr ⟨v, hv, by rw [h2]⟩
      · exact ih _ hwsW (Or.inr (Or.inr ⟨w, hwW, rfl⟩)) l hl2
    · rw [if_neg hcond] at hl
      refine ih _ hwsW ?_ l hl
      by_cases h : line = []
      · subst h
        exact Or.inr (Or.inr ⟨w, hwW, by simp⟩)
      · right; left
        rcases Decidable.not_and_iff_or_not.mp hcond with h2 | h2
        · omega
        · exact absurd h h2

/-! Fragments of space-free text. -/

theorem splitSpace_nosp (u : Str) (hu : ∀ c ∈ u, ¬ c = ' ') :
    splitSpace u = [u] := by
  induction u with
  | nil => rfl
  | cons c rest ih =>
    have hc : ¬ c = ' ' := hu c (by simp)
    have hts := ih (fun d hd => hu d (by simp [hd]))
    rw [splitSpace_cons_nonspace hc hts]

theorem splitSpace_append_space (u : Str) (rest : Str)
    (hu : ∀ c ∈ u, ¬ c = ' ') :
    splitSpace (u ++ ' ' :: rest) = u :: splitSpace rest := by
  induction u with
  | nil => simpa using splitSpace_cons_space rest
  | cons c u2 ih =>
    have hc : ¬ c = ' ' := hu c (by simp)
    have hih := ih (fun d hd => hu d (by simp [hd]))
    rw [show (c :: u2) ++ ' ' :: rest = c :: (u2 ++ ' ' :: rest) from rfl,
      splitSpace_cons_nonspace hc hih]

/-! Claim theorems. -/

/-- C1, counterexample: with a character-count constraint of 3, the SVG
variant's `wrapText` emits the line "ab c" — two tokens, four characters —
because its acceptance test omits the separating space.  The claim that
every emitted line satisfies the constraint unless it is a single over-long
token is therefore false. -/
theorem c1_counterexample :
    SvgApi.wrapText ("ab c").data 3 = [("ab c").data] ∧
    3 < (("ab c").data).length ∧
    (wsTokens ("ab c").data).length = 2 := by decide

/-- C1, amended: every line emitted by the character-count wrapper is within
ONE character of the constraint (`maxLen + 1`, the separating space its test
omits) or is a single fragment of the input's `split(' ')`; every line of the
PNG variant's pixel wrapper measures within the constraint or is a single
fragment; every line of the canvas variant's wrapper measures within the
constraint — for any measurement that does not grow under `trim` — or is the
trim of a single fragment (plus its trailing space). -/
theorem c1_amended :
    (∀ (text : Str) (maxLen : Nat), ∀ line ∈ SvgApi.wrapText text maxLen,
        line.length ≤ maxLen + 1 ∨ line ∈ splitSpace text) ∧
    (∀ (μ : Str → Nat) (maxWidth : Nat) (text : Str),
        ∀ line ∈ PngApi.wrapText μ maxWidth text,
          μ line ≤ maxWidth ∨ line ∈ splitSpace text) ∧
    (∀ (μ : Str → Nat) (maxWidth : Nat) (text : Str),
        (∀ s, μ (trimWS s) ≤ μ s) →
        ∀ line ∈ CanvasApi.wrapText μ maxWidth text,
          μ line ≤ maxWidth ∨ ∃ w ∈ splitSpace text, line = trimWS (w ++ [' '])) := by
  refine ⟨?_, ?_, ?_⟩
  · intro text maxLen line hline
    exact svg_wrapTextLoop_bound maxLen (splitSpace text) _ [] (fun w hw => hw)
      (Or.inl (by simp)) line hline
  · intro μ maxWidth text line hline
    exact png_wrapTextLoop_bound μ maxWidth (splitSpace text) _ [] (fun w hw => hw)
      (Or.inl rfl) line hline
  · intro μ maxWidth text hμ line hline
    exact canvas_wrapTextLoop_bound μ maxWidth (splitSpace text) hμ _ []
      (fun w hw => hw) (Or.inl rfl) line hline

/-- Witness for `c1_amended` at concrete inputs: the emitted line "ab c" of
the character-count wrapper at constraint 3, and the line of the canvas
wrapper with the length measurement (which never grows under trim). -/
theorem c1_amended_witness :
    (("ab c").data ∈ SvgApi.wrapText ("ab c").data 3 ∧
      ((("ab c").data).length ≤ 3 + 1 ∨ ("ab c").data ∈ splitSpace ("ab c").data)) ∧
    (("ab c").data ∈ CanvasApi.wrapText List.length 38 ("ab c").data ∧
      (List.length (("ab c").data) ≤ 38 ∨
        ∃ w ∈ splitSpace ("ab c").data, ("ab c").data = trimWS (w ++ [' ']))) :=
  ⟨⟨by decide, c1_amended.1 _ 3 _ (by decide)⟩,
   ⟨by decide, c1_amended.2.2 List.length 38 _ trimWS_length_le _ (by decide)⟩⟩

/-- C2, confirmed: for every input string (and any constraint and any
measurement function), concatenating the whitespace-delimited tokens of the
emitted lines of each of the three wrappers, in order, reproduces the
whitespace-delimited token sequence of the input exactly — no token is lost,
duplicated, reordered or split. -/
theorem c2_token_preservation :
    ∀ (text : Str) (maxLen : Nat) (μ : Str → Nat) (maxWidth : Nat),
      ((SvgApi.wrapText text maxLen).map wsTokens).flatten = wsTokens text ∧
      ((PngApi.wrapText μ maxWidth text).map wsTokens).flatten = wsTokens text ∧
      ((CanvasApi.wrapText μ maxWidth text).map wsTokens).flatten = wsTokens text := by
  intro text maxLen μ maxWidth
  refine ⟨?_, ?_, ?_⟩
  · rw [SvgApi.wrapText, svg_wrapTextLoop_tokens]
    simpa using wsTokens_splitSpace_join text
  · rw [PngApi.wrapText, png_wrapTextLoop_tokens]
    simpa using wsTokens_splitSpace_join text
  · rw [CanvasApi.wrapText, canvas_wrapTextLoop_tokens μ maxWidth _ [] (Or.inl rfl)]
    simpa using wsTokens_splitSpace_join text

/-- C8, counterexample: on the input "a  b" all three wrappers emit the line
"a  b", which contains two consecutive spaces between the tokens `a` and `b`:
consecutive input spaces are NOT collapsed to single separators. -/
theorem c8_counterexample :
    SvgApi.wrapText ("a  b").data 38 = [("a  b").data] ∧
    PngApi.wrapText List.length 38 ("a  b").data = [("a  b").data] ∧
    CanvasApi.wrapText List.length 38 ("a  b").data = [("a  b").data] ∧
    hasDoubleSpace ("a  b").data = true := by decide

/-- C8, amended: consecutive spaces are preserved, not collapsed —
`split(' ')` produces empty fragments and the join re-inserts their
separators.  Whenever two space-free words joined by a DOUBLE space fit the
character constraint together, the character-count wrapper emits them on one
line with the double space intact. -/
theorem c8_amended :
    ∀ (u v : Str) (maxLen : Nat),
      u ≠ [] → v ≠ [] →
      (∀ c ∈ u, ¬ c = ' ') → (∀ c ∈ v, ¬ c = ' ') →
      u.length + 1 + v.length ≤ maxLen →
      SvgApi.wrapText (u ++ ' ' :: ' ' :: v) maxLen = [u ++ ' ' :: ' ' :: v] := by
  intro u v maxLen hu hv hnu hnv hlen
  have hsplit : splitSpace (u ++ ' ' :: ' ' :: v) = [u, [], v] := by
    rw [splitSpace_append_space u (' ' :: v) hnu, splitSpace_cons_space,
      splitSpace_nosp v hnv]
  have hv1 : 1 ≤ v.length := by cases v; simp at hv; simp
  have hu1 : 1 ≤ u.length := by cases u; simp at hu; simp
  have hul : u.length ≤ maxLen := by omega
  rw [SvgApi.wrapText, hsplit]
  simp only [SvgApi.wrapTextLoop]
  simp [hu, hul, hlen]
  omega

/-- Witness for `c8_amended` at u = "a", v = "b", constraint 38. -/
theorem c8_amended_witness :
    SvgApi.wrapText (("a").data ++ ' ' :: ' ' :: ("b").data) 38
      = [("a").data ++ ' ' :: ' ' :: ("b").data] :=
  c8_amended ("a").data ("b").data 38 (by decide) (by decide)
    (by decide) (by decide) (by decide)

/-- C7, confirmed: with everything except the wrapped line count held fixed,
each variant's computed image height is monotonically non-decreasing in the
line count: SVG `svgHeight = 40 + 28·n + 60`, PNG
`totalHeight = 120 + 40·n + 120`, canvas `totalHeight = 28·n + 80`. -/
theorem c7_height_monotone :
    ∀ n m : Nat, n ≤ m →
      SvgApi.svgHeight n ≤ SvgApi.svgHeight m ∧
      PngApi.totalHeight n ≤ PngApi.totalHeight m ∧
      CanvasApi.totalHeight n ≤ CanvasApi.totalHeight m := by
  intro n m h
  refine ⟨?_, ?_, ?_⟩ <;>
    simp [SvgApi.svgHeight, PngApi.totalHeight, CanvasApi.totalHeight,
      SvgApi.lineHeight, SvgApi.paddingTop, SvgApi.paddingBottom,
      PngApi.lineHeight, PngApi.marginTop, CanvasApi.lineHeight] <;>
    omega

/-- Witness for `c7_height_monotone` at line counts 1 ≤ 3. -/
theorem c7_height_monotone_witness :
    SvgApi.svgHeight 1 ≤ SvgApi.svgHeight 3 ∧
    PngApi.totalHeight 1 ≤ PngApi.totalHeight 3 ∧
    CanvasApi.totalHeight 1 ≤ CanvasApi.totalHeight 3 :=
  c7_height_monotone 1 3 (by decide)

/-- C9, confirmed: the SVG variant's quote font size is a two-tier policy —
the base size 26 for every line count up to 5, and the single smaller size 22
for every line count above 5, with no further scaling (any two counts above
the threshold get the same size). -/
theorem c9_font_two_tier :
    ∀ n m k : Nat, n ≤ 5 → 5 < m → 5 < k →
      SvgApi.fontSizeQuote n = SvgApi.baseFontSize ∧
      SvgApi.fontSizeQuote m = 22 ∧
      SvgApi.fontSizeQuote m = SvgApi.fontSizeQuote k := by
  intro n m k hn hm hk
  simp [SvgApi.fontSizeQuote, SvgApi.baseFontSize, Nat.not_lt.mpr hn, hm, hk]

/-- Witness for `c9_font_two_tier` at line counts 3, 7 and 100. -/
theorem c9_font_two_tier_witness :
    SvgApi.fontSizeQuote 3 = SvgApi.baseFontSize ∧
    SvgApi.fontSizeQuote 7 = 22 ∧
    SvgApi.fontSizeQuote 7 = SvgApi.fontSizeQuote 100 :=
  c9_font_two_tier 3 7 100 (by decide) (by decide) (by decide)

/-- C4, counterexample: the code has no date-based selection — all three
handlers pick `quotes[Math.floor(Math.random() * quotes.length)]`.  The
handler consults no clock or date at all (its inputs are the upstream body,
the random draw and the detail-fetch outcome), so two calls on the same
calendar day with the same collection can already disagree: with draws `0`
and `1/2` on the same two-quote collection the SVG handler renders "Alpha"
and "Beta" respectively. -/
theorem c4_counterexample :
    SvgApi.Resp.docLines (SvgApi.handler (Except.ok twoQuoteColl) 0 FetchRes.netErr)
        = some [("Alpha").data] ∧
    SvgApi.Resp.docLines (SvgApi.handler (Except.ok twoQuoteColl) (1/2) FetchRes.netErr)
        = some [("Beta").data] ∧
    (some [("Alpha").data] : Option (List Str)) ≠ some [("Beta").data] :=
  ⟨by with_unfolding_all decide, by with_unfolding_all decide, by decide⟩

/-- C4, amended: selection is uniform random, a function of the random draw
and the collection size alone (and hence deterministic in the draw, but not
stable across a calendar day): for every draw in `[0, 1)` and non-empty
collection the selected index is in range, and every index is attainable by
some draw. -/
theorem c4_amended :
    ∀ (r : ℚ) (len : Nat), 0 ≤ r → r < 1 → 0 < len →
      (selectIndex r len < len ∧
        ∀ i : Nat, i < len → ∃ q : ℚ, 0 ≤ q ∧ q < 1 ∧ selectIndex q len = i) := by
  intro r len hr hr1 hlen
  constructor
  · have h1 : (0:ℚ) ≤ r * (len:ℚ) := mul_nonneg hr (by positivity)
    have h2 : r * (len:ℚ) < (len:ℚ) := by
      have := mul_lt_mul_of_pos_right hr1 (show (0:ℚ) < (len:ℚ) by exact_mod_cast hlen)
      simpa using this
    have h3 : Int.floor (r * (len:ℚ)) < (len:ℤ) := by
      rw [Int.floor_lt]
      exact_mod_cast h2
    have h4 : 0 ≤ Int.floor (r * (len:ℚ)) := Int.floor_nonneg.mpr h1
    unfold selectIndex
    omega
  · intro i hi
    refine ⟨(i:ℚ) / (len:ℚ), by positivity, ?_, ?_⟩
    · rw [div_lt_one (by exact_mod_cast hlen)]
      exact_mod_cast hi
    · have hne : (len:ℚ) ≠ 0 := by
        have h0 : len ≠ 0 := by omega
        exact_mod_cast h0
      unfold selectIndex
      rw [div_mul_cancel₀ _ hne, Int.floor_natCast, Int.toNat_natCast]

/-- Witness for `c4_amended` at draw 1/3 and collection size 4. -/
theorem c4_amended_witness : selectIndex (1/3 : ℚ) 4 < 4 :=
  (c4_amended (1/3) 4 (by norm_num) (by norm_num) (by norm_num)).1

/-! Escaping lemmas. -/

theorem replaceAll_append (t : Char) (r : Str) (a b : Str) :
    replaceAll t r (a ++ b) = replaceAll t r a ++ replaceAll t r b := by
  induction a with
  | nil => rfl
  | cons c a2 ih => simp [replaceAll, ih]

theorem replaceAll_of_not_mem {t : Char} {a : Str} (r : Str) (h : t ∉ a) :
    replaceAll t r a = a := by
  induction a with
  | nil => rfl
  | cons c a2 ih =>
    simp only [List.mem_cons, not_or] at h
    simp [replaceAll, Ne.symm h.1, ih h.2]

theorem encJoin_cons (enc : Char → Str) (c : Char) (s : Str) :
    encJoin enc (c :: s) = enc c ++ encJoin enc s := rfl

theorem encJoin_append (enc : Char → Str) (a b : Str) :
    encJoin enc (a ++ b) = encJoin enc a ++ encJoin enc b := by
  induction a with
  | nil => rfl
  | cons c a2 ih => simp [encJoin_cons, ih]

theorem svg_escapeXML_encJoin : ∀ s, SvgApi.escapeXML s = encJoin SvgApi.encodeChar s := by
  intro s
  induction s with
  | nil => rfl
  | cons c s2 ih => rw [SvgApi.escapeXML, encJoin_cons, ih]

theorem png_escapeXML_cons (c : Char) (s : Str) :
    PngApi.escapeXML (c :: s) = PngApi.encodeChar c ++ PngApi.escapeXML s := by
  unfold PngApi.escapeXML
  rw [show replaceAll ampChar entAmp (c :: s)
      = (if c = ampChar then entAmp else [c]) ++ replaceAll ampChar entAmp s from rfl]
  rw [replaceAll_append, replaceAll_append, replaceAll_append, replaceAll_append]
  congr 1
  by_cases h1 : c = ampChar
  · subst h1; decide
  · rw [if_neg h1]
    by_cases h2 : c = ltChar
    · subst h2; decide
    · by_cases h3 : c = gtChar
      · subst h3; decide
      · by_cases h4 : c = quoteChar
        · subst h4; decide
        · by_cases h5 : c = aposChar
          · subst h5; decide
          · have m2 : ltChar ∉ [c] := by
              simp only [List.mem_singleton]; exact fun hh => h2 hh.symm
            have m3 : gtChar ∉ [c] := by
              simp only [List.mem_singleton]; exact fun hh => h3 hh.symm
            have m4 : quoteChar ∉ [c] := by
              simp only [List.mem_singleton]; exact fun hh => h4 hh.symm
            have m5 : aposChar ∉ [c] := by
              simp only [List.mem_singleton]; exact fun hh => h5 hh.symm
            rw [replaceAll_of_not_mem entLt m2, replaceAll_of_not_mem entGt m3,
              replaceAll_of_not_mem entQuot m4, replaceAll_of_not_mem ent039 m5]
            simp [PngApi.encodeChar, h1, h2, h3, h4, h5]

theorem png_escapeXML_encJoin : ∀ s, PngApi.escapeXML s = encJoin PngApi.encodeChar s := by
  intro s
  induction s with
  | nil => rfl
  | cons c s2 ih => rw [png_escapeXML_cons, encJoin_cons, ih]

theorem isPrefixOf_append_self (t rest : Str) : t.isPrefixOf (t ++ rest) = true := by
  induction t with
  | nil => simp [List.isPrefixOf]
  | cons c t2 ih => simp [List.isPrefixOf, ih]

theorem ampOk_append_no_amp {b : Str} (tails : List Str) (h : ampChar ∉ b)
    (rest : Str) : ampOk tails (b ++ rest) = ampOk tails rest := by
  induction b with
  | nil => rfl
  | cons c b2 ih =>
    simp only [List.mem_cons, not_or] at h
    have hc : ¬ c = ampChar := fun hh => h.1 hh.symm
    rw [show (c :: b2) ++ rest = c :: (b2 ++ rest) from rfl]
    simp [ampOk, hc, ih h.2]

theorem ampOk_append_ent {t : Str} (tails : List Str) (ht : t ∈ tails)
    (ha : ampChar ∉ t) (rest : Str) :
    ampOk tails ((ampChar :: t) ++ rest) = ampOk tails rest := by
  have hany : tails.any (fun u => u.isPrefixOf (t ++ rest)) = true :=
    List.any_eq_true.mpr ⟨t, ht, isPrefixOf_append_self t rest⟩
  simp [ampOk, hany, ampOk_append_no_amp tails ha rest]

theorem ampOk_encJoin {tails : List Str} {enc : Char → Str} :
    ∀ s, (∀ c ∈ s, ampChar ∉ enc c ∨
        ∃ t ∈ tails, enc c = ampChar :: t ∧ ampChar ∉ t) →
      ampOk tails (encJoin enc s) = true := by
  intro s
  induction s with
  | nil => intro _; rfl
  | cons c s2 ih =>
    intro h
    rw [encJoin_cons]
    rcases h c (by simp) with h1 | ⟨t, ht, het, hat⟩
    · rw [ampOk_append_no_amp tails h1, ih (fun d hd => h d (by simp [hd]))]
    · rw [het, ampOk_append_ent tails ht hat, ih (fun d hd => h d (by simp [hd]))]

theorem not_mem_encJoin {enc : Char → Str} {d : Char}
    (h : ∀ c, d ∉ enc c) : ∀ s, d ∉ encJoin enc s := by
  intro s
  induction s with
  | nil => simp [encJoin]
  | cons c s2 ih =>
    rw [encJoin_cons]
    simp [h c, ih]

theorem svg_encodeChar_no_special (c : Char) :
    ltChar ∉ SvgApi.encodeChar c ∧ gtChar ∉ SvgApi.encodeChar c ∧
    quoteChar ∉ SvgApi.encodeChar c ∧ aposChar ∉ SvgApi.encodeChar c := by
  unfold SvgApi.encodeChar
  by_cases h1 : c = ampChar
  · subst h1; simp only [if_pos rfl]; decide
  · rw [if_neg h1]
    by_cases h2 : c = ltChar
    · subst h2; simp only [if_pos rfl]; decide
    · rw [if_neg h2]
      by_cases h3 : c = gtChar
      · subst h3; simp only [if_pos rfl]; decide
      · rw [if_neg h3]
        by_cases h4 : c = quoteChar
        · subst h4; simp only [if_pos rfl]; decide
        · rw [if_neg h4]
          by_cases h5 : c = aposChar
          · subst h5; simp only [if_pos rfl]; decide
          · rw [if_neg h5]
            simp only [List.mem_singleton]
            exact ⟨fun hh => h2 hh.symm, fun hh => h3 hh.symm,
              fun hh => h4 hh.symm, fun hh => h5 hh.symm⟩

theorem png_encodeChar_no_special (c : Char) :
    ltChar ∉ PngApi.encodeChar c ∧ gtChar ∉ PngApi.encodeChar c ∧
    quoteChar ∉ PngApi.encodeChar c ∧ aposChar ∉ PngApi.encodeChar c := by
  unfold PngApi.encodeChar
  by_cases h1 : c = ampChar
  · subst h1; simp only [if_pos rfl]; decide
  · rw [if_neg h1]
    by_cases h2 : c = ltChar
    · subst h2; simp only [if_pos rfl]; decide
    · rw [if_neg h2]
      by_cases h3 : c = gtChar
      · subst h3; simp only [if_pos rfl]; decide
      · rw [if_neg h3]
        by_cases h4 : c = quoteChar
        · subst h4; simp only [if_pos rfl]; decide
        · rw [if_neg h4]
          by_cases h5 : c = aposChar
          · subst h5; simp only [if_pos rfl]; decide
          · rw [if_neg h5]
            simp only [List.mem_singleton]
            exact ⟨fun hh => h2 hh.symm, fun hh => h3 hh.symm,
              fun hh => h4 hh.symm, fun hh => h5 hh.symm⟩

theorem svg_encodeChar_amp (c : Char) :
    ampChar ∉ SvgApi.encodeChar c ∨
      ∃ t ∈ svgTails, SvgApi.encodeChar c = ampChar :: t ∧ ampChar ∉ t := by
  unfold SvgApi.encodeChar
  by_cases h1 : c = ampChar
  · subst h1; simp only [if_pos rfl]
    exact Or.inr ⟨("amp;").data, by decide, by decide, by decide⟩
  · rw [if_neg h1]
    by_cases h2 : c = ltChar
    · subst h2; simp only [if_pos rfl]
      exact Or.inr ⟨("lt;").data, by decide, by decide, by decide⟩
    · rw [if_neg h2]
      by_cases h3 : c = gtChar
      · subst h3; simp only [if_pos rfl]
        exact Or.inr ⟨("gt;").data, by decide, by decide, by decide⟩
      · rw [if_neg h3]
        by_cases h4 : c = quoteChar
        · subst h4; simp only [if_pos rfl]
          exact Or.inr ⟨("quot;").data, by decide, by decide, by decide⟩
        · rw [if_neg h4]
          by_cases h5 : c = aposChar
          · subst h5; simp only [if_pos rfl]
            exact Or.inr ⟨("apos;").data, by decide, by decide, by decide⟩
          · rw [if_neg h5]
            left
            simp only [List.mem_singleton]
            exact fun hh => h1 hh.symm

theorem png_encodeChar_amp (c : Char) :
    ampChar ∉ PngApi.encodeChar c ∨
      ∃ t ∈ pngTails, PngApi.encodeChar c = ampChar :: t ∧ ampChar ∉ t := by
  unfold PngApi.encodeChar
  by_cases h1 : c = ampChar
  · subst h1; simp only [if_pos rfl]
    exact Or.inr ⟨("amp;").data, by decide, by decide, by decide⟩
  · rw [if_neg h1]
    by_cases h2 : c = ltChar
    · subst h2; simp only [if_pos rfl]
      exact Or.inr ⟨("lt;").data, by decide, by decide, by decide⟩
    · rw [if_neg h2]
      by_cases h3 : c = gtChar
      · subst h3; simp only [if_pos rfl]
        exact Or.inr ⟨("gt;").data, by decide, by decide, by decide⟩
      · rw [if_neg h3]
        by_cases h4 : c = quoteChar
        · subst h4; simp only [if_pos rfl]
          exact Or.inr ⟨("quot;").data, by decide, by decide, by decide⟩
        · rw [if_neg h4]
          by_cases h5 : c = aposChar
          · subst h5; simp only [if_pos rfl]
            exact Or.inr ⟨("#039;").data, by decide, by decide, by decide⟩
          · rw [if_neg h5]
            left
            simp only [List.mem_singleton]
            exact fun hh => h1 hh.symm

/-- C5, confirmed: both `escapeXML` implementations encode every character
independently (the per-character encoding characterization), so every
occurrence of each of `&`, `<`, `>`, the double quote and the apostrophe is
replaced by its entity; the result contains no raw `<`, `>`, quote or
apostrophe, and every remaining `&` is immediately followed by one of the
inserted entity tails. -/
theorem c5_escaping :
    ∀ s : Str,
      (PngApi.escapeXML s = encJoin PngApi.encodeChar s ∧
        ltChar ∉ PngApi.escapeXML s ∧ gtChar ∉ PngApi.escapeXML s ∧
        quoteChar ∉ PngApi.escapeXML s ∧ aposChar ∉ PngApi.escapeXML s ∧
        ampOk pngTails (PngApi.escapeXML s) = true) ∧
      (SvgApi.escapeXML s = encJoin SvgApi.encodeChar s ∧
        ltChar ∉ SvgApi.escapeXML s ∧ gtChar ∉ SvgApi.escapeXML s ∧
        quoteChar ∉ SvgApi.escapeXML s ∧ aposChar ∉ SvgApi.escapeXML s ∧
        ampOk svgTails (SvgApi.escapeXML s) = true) := by
  intro s
  refine ⟨⟨png_escapeXML_encJoin s, ?_, ?_, ?_, ?_, ?_⟩,
    ⟨svg_escapeXML_encJoin s, ?_, ?_, ?_, ?_, ?_⟩⟩
  · rw [png_escapeXML_encJoin]
    exact not_mem_encJoin (fun c => (png_encodeChar_no_special c).1) s
  · rw [png_escapeXML_encJoin]
    exact not_mem_encJoin (fun c => (png_encodeChar_no_special c).2.1) s
  · rw [png_escapeXML_encJoin]
    exact not_mem_encJoin (fun c => (png_encodeChar_no_special c).2.2.1) s
  · rw [png_escapeXML_encJoin]
    exact not_mem_encJoin (fun c => (png_encodeChar_no_special c).2.2.2) s
  · rw [png_escapeXML_encJoin]
    exact ampOk_encJoin s (fun c _ => png_encodeChar_amp c)
  · rw [svg_escapeXML_encJoin]
    exact not_mem_encJoin (fun c => (svg_encodeChar_no_special c).1) s
  · rw [svg_escapeXML_encJoin]
    exact not_mem_encJoin (fun c => (svg_encodeChar_no_special c).2.1) s
  · rw [svg_escapeXML_encJoin]
    exact not_mem_encJoin (fun c => (svg_encodeChar_no_special c).2.2.1) s
  · rw [svg_escapeXML_encJoin]
    exact not_mem_encJoin (fun c => (svg_encodeChar_no_special c).2.2.2) s
  · rw [svg_escapeXML_encJoin]
    exact ampOk_encJoin s (fun c _ => svg_encodeChar_amp c)

theorem svg_escapeXML_append (a b : Str) :
    SvgApi.escapeXML (a ++ b) = SvgApi.escapeXML a ++ SvgApi.escapeXML b := by
  rw [svg_escapeXML_encJoin, encJoin_append, ← svg_escapeXML_encJoin,
    ← svg_escapeXML_encJoin]

theorem svg_escapeXML_twice (s : Str) :
    SvgApi.escapeXML (SvgApi.escapeXML s)
      = encJoin (fun c => SvgApi.escapeXML (SvgApi.encodeChar c)) s := by
  induction s with
  | nil => rfl
  | cons c s2 ih =>
    rw [show SvgApi.escapeXML (c :: s2)
        = SvgApi.encodeChar c ++ SvgApi.escapeXML s2 from rfl,
      svg_escapeXML_append, ih, encJoin_cons]

theorem svg_encodeChar_amp_single {c : Char} (h2 : ¬ c = ltChar)
    (h3 : ¬ c = gtChar) (h4 : ¬ c = quoteChar) (h5 : ¬ c = aposChar) :
    ampChar ∉ SvgApi.encodeChar c ∨
      ∃ t ∈ [("amp;").data], SvgApi.encodeChar c = ampChar :: t ∧ ampChar ∉ t := by
  by_cases h1 : c = ampChar
  · subst h1
    exact Or.inr ⟨("amp;").data, by simp, by decide, by decide⟩
  · left
    unfold SvgApi.encodeChar
    rw [if_neg h1, if_neg h2, if_neg h3, if_neg h4, if_neg h5]
    simp only [List.mem_singleton]
    exact fun hh => h1 hh.symm

/-- C10, confirmed: in the SVG variant the author name is escaped twice —
`safeAuthor = escapeXML(authorName)` and the template applies `escapeXML`
again to the em-dash-prefixed author line.  Each character of the name is
embedded through both escape passes, so every special character appears in
its doubly-escaped form (`&` as `&amp;amp;`, `<` as `&amp;lt;`, …), and in
the emitted element every `&` is followed by `amp;` — no singly-escaped
entity such as `&lt;` occurs. -/
theorem c10_double_escape :
    ∀ name : Str,
      SvgApi.safeAuthorElement name
          = SvgApi.escapeXML emDashSp
              ++ encJoin (fun c => SvgApi.escapeXML (SvgApi.encodeChar c)) name ∧
      (SvgApi.escapeXML (SvgApi.encodeChar ampChar) = ("&amp;amp;").data ∧
        SvgApi.escapeXML (SvgApi.encodeChar ltChar) = ("&amp;lt;").data ∧
        SvgApi.escapeXML (SvgApi.encodeChar gtChar) = ("&amp;gt;").data ∧
        SvgApi.escapeXML (SvgApi.encodeChar quoteChar) = ("&amp;quot;").data ∧
        SvgApi.escapeXML (SvgApi.encodeChar aposChar) = ("&amp;apos;").data) ∧
      (∀ c ∈ name,
        SvgApi.escapeXML (SvgApi.encodeChar c) <:+: SvgApi.safeAuthorElement name) ∧
      ampOk [("amp;").data] (SvgApi.safeAuthorElement name) = true := by
  intro name
  have hchar : SvgApi.safeAuthorElement name
      = SvgApi.escapeXML emDashSp
          ++ encJoin (fun c => SvgApi.escapeXML (SvgApi.encodeChar c)) name := by
    rw [SvgApi.safeAuthorElement, svg_escapeXML_append, svg_escapeXML_twice]
  refine ⟨hchar, ⟨by decide, by decide, by decide, by decide, by decide⟩, ?_, ?_⟩
  · intro c hc
    obtain ⟨l1, l2, rfl⟩ := List.append_of_mem hc
    refine ⟨SvgApi.escapeXML emDashSp
        ++ encJoin (fun d => SvgApi.escapeXML (SvgApi.encodeChar d)) l1,
      encJoin (fun d => SvgApi.escapeXML (SvgApi.encodeChar d)) l2, ?_⟩
    rw [hchar, encJoin_append, encJoin_cons]
    simp
  · have hlts : ltChar ∉ emDashSp ++ SvgApi.escapeXML name := by
      simp only [List.mem_append, not_or]
      refine ⟨by decide, ?_⟩
      rw [svg_escapeXML_encJoin]
      exact not_mem_encJoin (fun d => (svg_encodeChar_no_special d).1) name
    have hgts : gtChar ∉ emDashSp ++ SvgApi.escapeXML name := by
      simp only [List.mem_append, not_or]
      refine ⟨by decide, ?_⟩
      rw [svg_escapeXML_encJoin]
      exact not_mem_encJoin (fun d => (svg_encodeChar_no_special d).2.1) name
    have hquots : quoteChar ∉ emDashSp ++ SvgApi.escapeXML name := by
      simp only [List.mem_append, not_or]
      refine ⟨by decide, ?_⟩
      rw [svg_escapeXML_encJoin]
      exact not_mem_encJoin (fun d => (svg_encodeChar_no_special d).2.2.1) name
    have haposs : aposChar ∉ emDashSp ++ SvgApi.escapeXML name := by
      simp only [List.mem_append, not_or]
      refine ⟨by decide, ?_⟩
      rw [svg_escapeXML_encJoin]
      exact not_mem_encJoin (fun d => (svg_encodeChar_no_special d).2.2.2) name
    rw [SvgApi.safeAuthorElement, svg_escapeXML_encJoin]
    apply ampOk_encJoin
    intro c hc
    exact svg_encodeChar_amp_single
      (fun hh => hlts (hh ▸ hc)) (fun hh => hgts (hh ▸ hc))
      (fun hh => hquots (hh ▸ hc)) (fun hh => haposs (hh ▸ hc))

/-- Witness for `c10_double_escape` at the name "A&B": the doubly-escaped
ampersand entity occurs in the emitted author element. -/
theorem c10_double_escape_witness :
    ampChar ∈ ("A&B").data ∧
    SvgApi.escapeXML (SvgApi.encodeChar ampChar)
      <:+: SvgApi.safeAuthorElement ("A&B").data :=
  ⟨by decide, (c10_double_escape ("A&B").data).2.2.1 ampChar (by decide)⟩

/-! Handler control-flow lemmas. -/

theorem png_handlerCore_status (qb : Except Unit JsVal) (r : ℚ) (μ : Str → Nat)
    (d : FetchRes) (resp : PngApi.Resp)
    (h : PngApi.handlerCore qb r μ d = Except.ok resp) : resp.status = 200 := by
  simp only [PngApi.handlerCore] at h
  repeat' split at h
  all_goals (first | (cases h; rfl) | (cases h))

theorem svg_handlerCore_status (qb : Except Unit JsVal) (r : ℚ) (d : FetchRes)
    (resp : SvgApi.Resp)
    (h : SvgApi.handlerCore qb r d = Except.ok resp) : resp.status = 200 := by
  simp only [SvgApi.handlerCore] at h
  repeat' split at h
  all_goals (first | (cases h; rfl) | (cases h))

theorem canvas_handlerCore_status (qb : Except Unit JsVal) (r : ℚ) (μ : Str → Nat)
    (resp : CanvasApi.Resp)
    (h : CanvasApi.handlerCore qb r μ = Except.ok resp) : resp.status = 200 := by
  simp only [CanvasApi.handlerCore] at h
  repeat' split at h
  all_goals (first | (cases h; rfl) | (cases h))

/-- C3, counterexample: a non-empty JSON string body passes the SVG handler's
guard `!quotesData || !quotesData.length` (a string is truthy and has a
truthy `length`), so for the non-array upstream body `"abc"` the SVG handler
responds 200, not 500. -/
theorem c3_counterexample :
    jsIsArray (JsVal.str ("abc").data) = false ∧
    (SvgApi.handler (Except.ok (JsVal.str ("abc").data)) 0 FetchRes.netErr).status
      = 200 :=
  ⟨rfl, by with_unfolding_all decide⟩

/-- C3, amended: the PNG and canvas handlers respond 500 with their
plain-text fallback for EVERY body that is empty or not an array (their guard
is `!Array.isArray(quotes) || quotes.length === 0`); the SVG handler responds
500 with its fallback SVG for every body that is falsy or has a falsy
`length` — but its weaker guard admits non-array values with a truthy
`length`, such as non-empty strings.  In all cases no error escapes: every
response of the three handlers has status 200 or 500. -/
theorem c3_amended :
    (∀ (q : JsVal) (r : ℚ) (μ : Str → Nat) (d : FetchRes),
        guard1Fails q = true →
        PngApi.handler (Except.ok q) r μ d = PngApi.errorResp ∧
        CanvasApi.handler (Except.ok q) r μ = CanvasApi.errorResp) ∧
    (∀ (q : JsVal) (r : ℚ) (d : FetchRes),
        guard2Pass q = false →
        SvgApi.handler (Except.ok q) r d = SvgApi.errorResp) ∧
    (∀ (qb : Except Unit JsVal) (r : ℚ) (μ : Str → Nat) (d : FetchRes),
        (PngApi.handler qb r μ d).status = 200 ∨
          (PngApi.handler qb r μ d).status = 500) ∧
    (∀ (qb : Except Unit JsVal) (r : ℚ) (d : FetchRes),
        (SvgApi.handler qb r d).status = 200 ∨ (SvgApi.handler qb r d).status = 500) ∧
    (∀ (qb : Except Unit JsVal) (r : ℚ) (μ : Str → Nat),
        (CanvasApi.handler qb r μ).status = 200 ∨
          (CanvasApi.handler qb r μ).status = 500) := by
  refine ⟨?_, ?_, ?_, ?_, ?_⟩
  · intro q r μ d hg
    constructor
    · simp [PngApi.handler, PngApi.handlerCore, hg]
    · simp [CanvasApi.handler, CanvasApi.handlerCore, hg]
  · intro q r d hg
    by_cases ht : jsTruthy q
    · rw [guard2Pass, ht] at hg
      simp only [Bool.true_and] at hg
      cases hp : getProp q lengthKey with
      | error e =>
        simp [SvgApi.handler, SvgApi.handlerCore, ht, hp]
      | ok v =>
        rw [hp] at hg
        simp only [] at hg
        simp [SvgApi.handler, SvgApi.handlerCore, ht, hp, hg]
    · simp only [Bool.not_eq_true] at ht
      simp [SvgApi.handler, SvgApi.handlerCore, ht]
  · intro qb r μ d
    cases hc : PngApi.handlerCore qb r μ d with
    | error e => right; simp [PngApi.handler, hc, PngApi.errorResp]
    | ok resp => left; simpa [PngApi.handler, hc] using
        png_handlerCore_status qb r μ d resp hc
  · intro qb r d
    cases hc : SvgApi.handlerCore qb r d with
    | error e => right; simp [SvgApi.handler, hc, SvgApi.errorResp]
    | ok resp => left; simpa [SvgApi.handler, hc] using
        svg_handlerCore_status qb r d resp hc
  · intro qb r μ
    cases hc : CanvasApi.handlerCore qb r μ with
    | error e => right; simp [CanvasApi.handler, hc, CanvasApi.errorResp]
    | ok resp => left; simpa [CanvasApi.handler, hc] using
        canvas_handlerCore_status qb r μ resp hc

/-- Witness for `c3_amended` at the empty-array body. -/
theorem c3_amended_witness :
    guard1Fails (JsVal.arr []) = true ∧
    PngApi.handler (Except.ok (JsVal.arr [])) 0 List.length FetchRes.netErr
      = PngApi.errorResp ∧
    guard2Pass (JsVal.arr []) = false ∧
    SvgApi.handler (Except.ok (JsVal.arr [])) 0 FetchRes.netErr = SvgApi.errorResp :=
  ⟨rfl, (c3_amended.1 (JsVal.arr []) 0 List.length FetchRes.netErr rfl).1,
    rfl, c3_amended.2.1 (JsVal.arr []) 0 FetchRes.netErr rfl⟩

/-- C6, counterexample: when the philosopher detail fetch fails, the PNG
handler keeps `philosopherName = ''` and OMITS the author element — there is
no placeholder attribution.  On a well-formed one-quote collection with a
philosopher id and a failing detail fetch it responds 200 with no author
element, contradicting "author attribution is the placeholder text". -/
theorem c6_counterexample :
    (PngApi.handler (Except.ok (JsVal.arr [sampleQuoteWithPhil])) 0 List.length
        FetchRes.netErr).status = 200 ∧
    PngApi.Resp.docAuthor
        (PngApi.handler (Except.ok (JsVal.arr [sampleQuoteWithPhil])) 0 List.length
          FetchRes.netErr) = some none :=
  ⟨by with_unfolding_all decide, by with_unfolding_all decide⟩

/-- C6, amended: on a failing philosopher detail fetch the SVG handler's
author resolves to the placeholder "Unknown Philosopher" (and a well-formed
request still responds 200 with that placeholder, doubly escaped, in the
author element), while the PNG handler resolves the name to the empty string
— its response is still 200 but the author element is omitted rather than a
placeholder. -/
theorem c6_amended :
    (∀ (pid : JsVal) (d : FetchRes), SvgApi.detailFails d = true →
        SvgApi.detailAuthor pid d = JsVal.str SvgApi.unknownPhilosopher) ∧
    ((SvgApi.handler (Except.ok (JsVal.arr [sampleQuoteWithPhil])) 0
        FetchRes.netErr).status = 200 ∧
      SvgApi.Resp.docAuthor
          (SvgApi.handler (Except.ok (JsVal.arr [sampleQuoteWithPhil])) 0
            FetchRes.netErr)
        = some (SvgApi.safeAuthorElement SvgApi.unknownPhilosopher)) ∧
    (∀ (pid : JsVal) (d : FetchRes), PngApi.detailFails d = true →
        PngApi.detailName pid d = JsVal.str []) := by
  refine ⟨?_, ⟨by with_unfolding_all decide, by with_unfolding_all rfl⟩, ?_⟩
  · intro pid d h
    cases d with
    | netErr => by_cases hp : jsTruthy pid <;> simp [SvgApi.detailAuthor, hp]
    | resp ok body =>
      by_cases hp : jsTruthy pid
      · cases ok with
        | false => simp [SvgApi.detailAuthor, hp]
        | true =>
          cases body with
          | error e => simp [SvgApi.detailAuthor, hp]
          | ok pData =>
            simp only [SvgApi.detailFails] at h
            cases hn : getPropOpt pData nameKey with
            | error e => simp [SvgApi.detailAuthor, hp, hn]
            | ok nv =>
              rw [hn] at h
              simp only [Bool.not_true, Bool.false_or] at h
              simp only [Bool.not_eq_true'] at h
              simp [SvgApi.detailAuthor, hp, hn, h]
      · simp [SvgApi.detailAuthor, hp]
  · intro pid d h
    cases d with
    | netErr => by_cases hp : jsTruthy pid <;> simp [PngApi.detailName, hp]
    | resp ok body =>
      by_cases hp : jsTruthy pid
      · cases body with
        | error e => simp [PngApi.detailName, hp]
        | ok pData =>
          simp only [PngApi.detailFails] at h
          cases hn : getProp pData nameKey with
          | error e => simp [PngApi.detailName, hp, hn]
          | ok nv =>
            rw [hn] at h
            simp only [Bool.not_eq_true'] at h
            simp [PngApi.detailName, hp, hn, jsOr, h]
      · simp [PngApi.detailName, hp]

/-- Witness for `c6_amended` at the network-error detail outcome and a
truthy philosopher id. -/
theorem c6_amended_witness :
    SvgApi.detailFails FetchRes.netErr = true ∧
    SvgApi.detailAuthor (JsVal.str ("p1").data) FetchRes.netErr
      = JsVal.str SvgApi.unknownPhilosopher ∧
    PngApi.detailFails FetchRes.netErr = true ∧
    PngApi.detailName (JsVal.str ("p1").data) FetchRes.netErr = JsVal.str [] :=
  ⟨rfl, c6_amended.1 _ _ rfl, rfl, c6_amended.2.2 _ _ rfl⟩
